import Mathlib

/-
Verification of the KAnim exporter (src/blender25_x3d/export_kanim.py).

The add-on consists of a frame-sampling while-loop and a small XML index
writer (ExportKAnim.execute together with ExportKAnim.output_frame).  The
embedding below transcribes that logic: frame numbers are integers, the
kanim file is a list of written chunks, the host X3D exporter is an
injected fallible function, and a raised exception is modelled by an
early return carrying the error value.
-/

namespace KAnim

/-- Decimal digit extraction, least significant digit first, written with an
explicit fuel argument so that it is structurally recursive; fuel n is always
enough because the value shrinks at every step.  It agrees with
Nat.digits 10 (lemma digitsFuel_eq_digits below). -/
def digitsFuel : Nat → Nat → List Nat
  | 0, _ => []
  | fuel + 1, n => if n = 0 then [] else n % 10 :: digitsFuel fuel (n / 10)

/-- The decimal representation of a natural number, most significant digit
first, as Python prints it for a nonnegative operand of the percent-d
conversion. -/
def decRepr (n : Nat) : String :=
  if n = 0 then ("0")
  else String.mk (((digitsFuel n n).reverse).map (fun d => Char.ofNat (48 + d)))

/-- Numeric value of a decimal digit character. -/
def charVal (c : Char) : Nat := c.toNat - 48

/-- Numeric value of a string of decimal digits (most significant first).
Used to state that the printed numbers parse back to the intended values. -/
def strVal (s : String) : Nat := Nat.ofDigits 10 ((s.data.map charVal).reverse)

/-- Models the Python expression ("%04d" percent-formatting of n): the decimal
representation padded on the left with zeros to a minimum total width of four
columns, the minus sign occupying one column.  The width is a minimum, never a
truncation. -/
def pyPad4 (n : Int) : String :=
  if n < 0 then ("-") ++ String.mk (List.leftpad 3 '0' (decRepr n.natAbs).data)
  else String.mk (List.leftpad 4 '0' (decRepr n.natAbs).data)

/-- Index of the last occurrence of a dot in a character list, if any. -/
def lastDot : List Char → Option Nat
  | [] => none
  | c :: rest =>
    match lastDot rest with
    | some i => some (i + 1)
    | none => if c = '.' then some 0 else none

/-- Models os.path.splitext applied at line 81 of the source, first component,
for a basename containing no path separator: the extension is split off at the
last dot, except when every character before that dot is itself a dot (then
nothing is split off). -/
def splitextStem (s : String) : String :=
  match lastDot s.data with
  | none => s
  | some i =>
    if (s.data.take i).any (fun c => c != '.') then String.mk (s.data.take i) else s

/-- The per-frame file name built at lines 80-82 of the source: the basename
of the export path without its extension, then the frame number through
"%04d", then the ".x3d" extension. -/
def outputBasename (filepathBasename : String) (frame : Int) : String :=
  splitextStem filepathBasename ++ pyPad4 frame ++ (".x3d")

/-- Models the Python expression (percent-f formatting of
(frame - frame_start) / 25.0) from line 86 of the source.  The exact quotient
(frame - frame_start) / 25 times 10^6 is the integer
40000 * (frame - frame_start), so the six fractional digits printed by the
fixed-point conversion are exactly the decimal digits of that integer; for
every frame number the host can hold (far below 10^10 in magnitude) the
double-precision division by 25.0 followed by the conversion's rounding to six
places reproduces exactly these digits, so the embedding computes with the
exact integer number of microseconds. -/
def fmtTime (frame frame_start : Int) : String :=
  let micro : Int := 40000 * (frame - frame_start)
  if micro < 0 then
    ("-") ++ decRepr (micro.natAbs / 1000000) ++ (".") ++
      String.mk (List.leftpad 6 '0' (decRepr (micro.natAbs % 1000000)).data)
  else
    decRepr (micro.natAbs / 1000000) ++ (".") ++
      String.mk (List.leftpad 6 '0' (decRepr (micro.natAbs % 1000000)).data)

/-- The index line written for one frame (lines 85-86 of the source). -/
def frameLine (base : String) (frame frame_start : Int) : String :=
  ("  <frame file_name=\"") ++ outputBasename base frame ++ ("\" time=\"") ++
    fmtTime frame frame_start ++ ("\" />\n")

/-- Observable state of one export run: the chunks written to the kanim file
in order, the per-frame model file names produced by the host exporter in
order, and whether the kanim file handle has been closed. -/
structure KFile where
  chunks : List String
  models : List String
  closed : Bool
  deriving DecidableEq

/-- One call of ExportKAnim.output_frame (lines 71-94 of the source): append
the frame line to the kanim file, then invoke the host X3D exporter for the
per-frame file; a failure of the exporter propagates after the line has
already been written. -/
def output_frame {ε : Type} (ex : Int → Except ε Unit) (base : String)
    (st : KFile) (frame frame_start : Int) : KFile × Option ε :=
  let st1 : KFile := { st with chunks := st.chunks ++ [frameLine base frame frame_start] }
  match ex frame with
  | Except.ok _ => ({ st1 with models := st1.models ++ [outputBasename base frame] }, none)
  | Except.error err => (st1, some err)

/-- The while-loop of ExportKAnim.execute (lines 101-104 of the source):
while frame < frame_end, output the frame and advance by 1 + frame_skip; a
propagating exporter failure aborts the loop. -/
def executeLoop {ε : Type} (ex : Int → Except ε Unit) (base : String)
    (frame_end : Int) (skip : Nat) (frame_start frame : Int) (st : KFile) :
    KFile × Option ε :=
  if h : frame < frame_end then
    match output_frame ex base st frame frame_start with
    | (st1, none) => executeLoop ex base frame_end skip frame_start (frame + 1 + skip) st1
    | (st1, some err) => (st1, some err)
  else (st, none)
termination_by (frame_end - frame).toNat
decreasing_by omega

/-- ExportKAnim.execute (lines 96-114 of the source): open the kanim file,
write the XML prolog and the root-opening tag, run the frame loop, output the
final frame unconditionally, then write the root-closing tag and close the
file.  A propagating exporter failure skips everything after the point of
failure, including the close call. -/
def execute {ε : Type} (ex : Int → Except ε Unit) (base : String)
    (frame_start frame_end : Int) (skip : Nat) : KFile × Option ε :=
  let st0 : KFile :=
    { chunks := [("<?xml version=\"1.0\"?>\n"), ("<animation>\n")],
      models := [], closed := false }
  match executeLoop ex base frame_end skip frame_start frame_start st0 with
  | (st1, some err) => (st1, some err)
  | (st1, none) =>
    match output_frame ex base st1 frame_end frame_start with
    | (st2, some err) => (st2, some err)
    | (st2, none) =>
      ({ st2 with chunks := st2.chunks ++ [("</animation>\n")], closed := true }, none)

/-- The frame numbers visited by the while-loop of execute. -/
def sampleLoop (frame_end : Int) (skip : Nat) (frame : Int) : List Int :=
  if h : frame < frame_end then frame :: sampleLoop frame_end skip (frame + 1 + skip)
  else []
termination_by (frame_end - frame).toNat
decreasing_by omega

/-- The sampled frame sequence of one export run: the frames visited by the
loop, followed by the final frame that lines 105-107 always append. -/
def sampleFrames (frame_start frame_end : Int) (skip : Nat) : List Int :=
  sampleLoop frame_end skip frame_start ++ [frame_end]

/-- Structurally recursive version of sampleLoop with an explicit fuel bound,
used to evaluate the sampler on concrete inputs; it agrees with sampleLoop
whenever the fuel suffices (lemma sampleLoopFuel_eq below). -/
def sampleLoopFuel (frame_end : Int) (skip : Nat) : Nat → Int → List Int
  | 0, _ => []
  | fuel + 1, frame =>
    if frame < frame_end then frame :: sampleLoopFuel frame_end skip fuel (frame + 1 + skip)
    else []

/-- Sequential processing of a list of frames by output_frame, stopping at the
first exporter failure.  The loop of execute equals this function applied to
sampleLoop (lemma executeLoop_eq_processFrames below). -/
def processFrames {ε : Type} (ex : Int → Except ε Unit) (base : String)
    (frame_start : Int) : List Int → KFile → KFile × Option ε
  | [], st => (st, none)
  | f :: fs, st =>
    match output_frame ex base st f frame_start with
    | (st1, none) => processFrames ex base frame_start fs st1
    | (st1, some err) => (st1, some err)

/-- Whether the host exporter succeeds on a given frame. -/
def okB {ε : Type} (r : Except ε Unit) : Bool :=
  match r with
  | Except.ok _ => true
  | Except.error _ => false

/-- execute, rephrased over an explicit frame list: process the frames, and on
success append the closing tag and close the file. -/
def runList {ε : Type} (ex : Int → Except ε Unit) (base : String)
    (frame_start : Int) (frames : List Int) : KFile × Option ε :=
  let st0 : KFile :=
    { chunks := [("<?xml version=\"1.0\"?>\n"), ("<animation>\n")],
      models := [], closed := false }
  match processFrames ex base frame_start frames st0 with
  | (st1, some err) => (st1, some err)
  | (st1, none) =>
    ({ st1 with chunks := st1.chunks ++ [("</animation>\n")], closed := true }, none)

/-- A host exporter that succeeds on every frame (witness fixture). -/
def exAlways : Int → Except String Unit := fun _ => Except.ok ()

/-- A host exporter that succeeds on frames below 1 and fails from frame 1 on
(witness fixture). -/
def exUntil1 : Int → Except String Unit :=
  fun f => if f < 1 then Except.ok () else Except.error ("boom")

/-! Lemmas about the decimal rendering. -/

theorem digitsFuel_eq_digits : ∀ (fuel n : Nat), n ≤ fuel → digitsFuel fuel n = Nat.digits 10 n := by
  intro fuel
  induction fuel with
  | zero =>
    intro n hn
    have h0 : n = 0 := by omega
    subst h0
    simp [digitsFuel]
  | succ fuel ih =>
    intro n hn
    by_cases h0 : n = 0
    · subst h0; simp [digitsFuel]
    · have hdiv : n / 10 ≤ fuel := by
        have := Nat.div_lt_self (Nat.pos_of_ne_zero h0) (by norm_num : 1 < 10)
        omega
      rw [digitsFuel, if_neg h0, ih (n / 10) hdiv,
        Nat.digits_def' (by norm_num : 1 < 10) (Nat.pos_of_ne_zero h0)]

theorem decRepr_of_ne_zero (n : Nat) (h : n ≠ 0) :
    decRepr n = String.mk ((Nat.digits 10 n).reverse.map (fun d => Char.ofNat (48 + d))) := by
  rw [decRepr, if_neg h, digitsFuel_eq_digits n n (le_refl n)]

theorem charVal_ofNat (d : Nat) (h : d < 10) : charVal (Char.ofNat (48 + d)) = d := by
  interval_cases d <;> rfl

theorem isDigit_ofNat (d : Nat) (h : d < 10) : (Char.ofNat (48 + d)).isDigit = true := by
  interval_cases d <;> rfl

theorem ofDigits_replicate_zero : ∀ (m : Nat), Nat.ofDigits 10 (List.replicate m 0) = 0 := by
  intro m
  induction m with
  | zero => rfl
  | succ m ih => rw [List.replicate_succ, Nat.ofDigits_cons, ih]

theorem strVal_decRepr (n : Nat) : strVal (decRepr n) = n := by
  by_cases h0 : n = 0
  · subst h0; rfl
  · rw [decRepr_of_ne_zero n h0]
    show Nat.ofDigits 10
      ((((Nat.digits 10 n).reverse.map (fun d => Char.ofNat (48 + d))).map charVal).reverse) = n
    rw [List.map_map]
    have hmap : (Nat.digits 10 n).reverse.map (charVal ∘ fun d => Char.ofNat (48 + d)) =
        (Nat.digits 10 n).reverse.map id := by
      apply List.map_congr_left
      intro d hd
      have hd10 : d < 10 :=
        Nat.digits_lt_base (by norm_num) (List.mem_reverse.mp hd)
      simp only [Function.comp_apply, id]
      exact charVal_ofNat d hd10
    rw [hmap, List.map_id, List.reverse_reverse, Nat.ofDigits_digits]

theorem strVal_mk_leftpad (k : Nat) (l : List Char) :
    strVal (String.mk (List.leftpad k '0' l)) = strVal (String.mk l) := by
  show Nat.ofDigits 10 (((List.leftpad k '0' l).map charVal).reverse) =
    Nat.ofDigits 10 ((l.map charVal).reverse)
  rw [List.leftpad, List.map_append, List.map_replicate]
  have hzero : charVal '0' = 0 := rfl
  rw [hzero, List.reverse_append, List.reverse_replicate, Nat.ofDigits_append,
    ofDigits_replicate_zero, Nat.mul_zero, Nat.add_zero]

theorem strVal_pyPad4 (n : Int) (h : 0 ≤ n) : strVal (pyPad4 n) = n.toNat := by
  rw [pyPad4, if_neg (by omega : ¬ n < 0)]
  have hmk : String.mk (decRepr n.natAbs).data = decRepr n.natAbs := rfl
  rw [strVal_mk_leftpad, hmk, strVal_decRepr]
  omega

theorem decRepr_length_le (n L : Nat) (hL : 0 < L) (hn : n < 10 ^ L) :
    (decRepr n).data.length ≤ L := by
  by_cases h0 : n = 0
  · subst h0
    show 1 ≤ L
    omega
  · rw [decRepr_of_ne_zero n h0]
    show ((Nat.digits 10 n).reverse.map (fun d => Char.ofNat (48 + d))).length ≤ L
    rw [List.length_map, List.length_reverse,
      Nat.digits_len 10 n (by norm_num) h0]
    have := Nat.log_lt_of_lt_pow h0 hn
    omega

theorem decRepr_isDigit (n : Nat) : ∀ c ∈ (decRepr n).data, c.isDigit = true := by
  by_cases h0 : n = 0
  · subst h0
    intro c hc
    simp only [decRepr, if_pos rfl] at hc
    have : c = '0' := by simpa using hc
    subst this; rfl
  · rw [decRepr_of_ne_zero n h0]
    intro c hc
    have hc2 : c ∈ (Nat.digits 10 n).reverse.map (fun d => Char.ofNat (48 + d)) := hc
    obtain ⟨d, hd, rfl⟩ := List.mem_map.mp hc2
    exact isDigit_ofNat d (Nat.digits_lt_base (by norm_num) (List.mem_reverse.mp hd))

/-! Lemmas about the frame sampler. -/

theorem sampleLoop_pos (e : Int) (k : Nat) (f : Int) (h : f < e) :
    sampleLoop e k f = f :: sampleLoop e k (f + 1 + k) := by
  rw [sampleLoop]
  simp [h]

theorem sampleLoop_neg (e : Int) (k : Nat) (f : Int) (h : ¬ f < e) :
    sampleLoop e k f = [] := by
  rw [sampleLoop]
  simp [h]

theorem sampleLoop_head (e : Int) (k : Nat) (f : Int) :
    (sampleLoop e k f ++ [e]).head? = some (min f e) := by
  by_cases h : f < e
  · rw [sampleLoop_pos e k f h, List.cons_append]
    simp [min_eq_left (le_of_lt h)]
  · rw [sampleLoop_neg e k f h]
    simp [min_eq_right (by omega : e ≤ f)]

theorem sampleLoop_get0 (e : Int) (k : Nat) (f : Int) :
    (sampleLoop e k f ++ [e])[0]? = some (min f e) := by
  by_cases h : f < e
  · rw [sampleLoop_pos e k f h, List.cons_append]
    simp [min_eq_left (le_of_lt h)]
  · rw [sampleLoop_neg e k f h]
    simp [min_eq_right (by omega : e ≤ f)]

theorem sampleLoop_chain (e : Int) (k : Nat) :
    ∀ (n : Nat) (f : Int), (e - f).toNat ≤ n →
      List.Chain' (fun a b => a < b) (sampleLoop e k f ++ [e]) := by
  intro n
  induction n with
  | zero =>
    intro f hf
    rw [sampleLoop_neg e k f (by omega)]
    simp
  | succ n ih =>
    intro f hf
    by_cases h : f < e
    · rw [sampleLoop_pos e k f h, List.cons_append, List.chain'_cons']
      refine ⟨?_, ih (f + 1 + k) (by omega)⟩
      intro y hy
      rw [sampleLoop_head] at hy
      have hy2 : y = min (f + 1 + k) e := (by simpa using hy : _ = y).symm
      subst hy2
      exact lt_min (by omega) h
    · rw [sampleLoop_neg e k f h]
      simp

theorem sampleLoop_step (e : Int) (k : Nat) :
    ∀ (n : Nat) (f : Int), (e - f).toNat ≤ n →
      ∀ (i : Nat) (x y : Int), (sampleLoop e k f ++ [e])[i]? = some x →
        (sampleLoop e k f ++ [e])[i + 1]? = some y → y = min (x + 1 + k) e := by
  intro n
  induction n with
  | zero =>
    intro f hf i x y _ hy
    rw [sampleLoop_neg e k f (by omega)] at hy
    simp at hy
  | succ n ih =>
    intro f hf i x y hx hy
    by_cases h : f < e
    · rw [sampleLoop_pos e k f h, List.cons_append] at hx hy
      cases i with
      | zero =>
        have hx2 : x = f := (by simpa using hx : _ = x).symm
        subst hx2
        rw [List.getElem?_cons_succ, sampleLoop_get0] at hy
        exact (by simpa using hy : _ = y).symm
      | succ i =>
        rw [List.getElem?_cons_succ] at hx hy
        exact ih (f + 1 + k) (by omega) i x y hx hy
    · rw [sampleLoop_neg e k f h] at hx hy
      simp at hy

theorem sampleFrames_chain (s e : Int) (k : Nat) :
    List.Chain' (fun a b => a < b) (sampleFrames s e k) :=
  sampleLoop_chain e k (e - s).toNat s (le_refl _)

theorem sampleFrames_nodup (s e : Int) (k : Nat) : (sampleFrames s e k).Nodup := by
  have h := sampleFrames_chain s e k
  rw [List.chain'_iff_pairwise] at h
  exact h.imp (fun hab => ne_of_lt hab)

theorem sampleFrames_getLast (s e : Int) (k : Nat) :
    (sampleFrames s e k).getLast? = some e :=
  List.getLast?_concat _

theorem sampleFrames_head (s e : Int) (k : Nat) (h : s ≤ e) :
    (sampleFrames s e k).head? = some s := by
  rw [sampleFrames, sampleLoop_head, min_eq_left h]

theorem sampleLoopFuel_eq (e : Int) (k : Nat) :
    ∀ (fuel : Nat) (f : Int), (e - f).toNat ≤ fuel →
      sampleLoopFuel e k fuel f = sampleLoop e k f := by
  intro fuel
  induction fuel with
  | zero =>
    intro f hf
    rw [sampleLoopFuel, sampleLoop_neg e k f (by omega)]
  | succ fuel ih =>
    intro f hf
    by_cases h : f < e
    · rw [sampleLoopFuel, if_pos h, sampleLoop_pos e k f h, ih (f + 1 + k) (by omega)]
    · rw [sampleLoopFuel, if_neg h, sampleLoop_neg e k f h]

theorem sampleFrames_eval (s e : Int) (k fuel : Nat) (h : (e - s).toNat ≤ fuel) :
    sampleFrames s e k = sampleLoopFuel e k fuel s ++ [e] := by
  rw [sampleFrames, sampleLoopFuel_eq e k fuel s h]

/-! Lemmas about one export run. -/

theorem processFrames_cons_ok {ε : Type} (ex : Int → Except ε Unit) (base : String)
    (s f : Int) (fs : List Int) (st : KFile) (hex : ex f = Except.ok ()) :
    processFrames ex base s (f :: fs) st = processFrames ex base s fs
      { st with
        chunks := st.chunks ++ [frameLine base f s],
        models := st.models ++ [outputBasename base f] } := by
  simp only [processFrames, output_frame, hex]

theorem processFrames_cons_err {ε : Type} (ex : Int → Except ε Unit) (base : String)
    (s f : Int) (fs : List Int) (st : KFile) (err : ε) (hex : ex f = Except.error err) :
    processFrames ex base s (f :: fs) st =
      ({ st with chunks := st.chunks ++ [frameLine base f s] }, some err) := by
  simp only [processFrames, output_frame, hex]

theorem executeLoop_eq_processFrames {ε : Type} (ex : Int → Except ε Unit) (base : String)
    (e : Int) (k : Nat) (s : Int) :
    ∀ (n : Nat) (f : Int), (e - f).toNat ≤ n → ∀ st : KFile,
      executeLoop ex base e k s f st = processFrames ex base s (sampleLoop e k f) st := by
  intro n
  induction n with
  | zero =>
    intro f hf st
    rw [executeLoop, dif_neg (by omega : ¬ f < e), sampleLoop_neg e k f (by omega)]
    rfl
  | succ n ih =>
    intro f hf st
    by_cases h : f < e
    · rw [executeLoop, dif_pos h, sampleLoop_pos e k f h]
      simp only [processFrames]
      rcases hout : output_frame ex base st f s with ⟨st1, o⟩
      cases o with
      | none => exact ih (f + 1 + k) (by omega) st1
      | some err => rfl
    · rw [executeLoop, dif_neg h, sampleLoop_neg e k f h]
      rfl

theorem processFrames_append {ε : Type} (ex : Int → Except ε Unit) (base : String) (s : Int) :
    ∀ (L1 L2 : List Int) (st : KFile),
      processFrames ex base s (L1 ++ L2) st =
        match processFrames ex base s L1 st with
        | (st1, none) => processFrames ex base s L2 st1
        | (st1, some err) => (st1, some err) := by
  intro L1
  induction L1 with
  | nil => intro L2 st; rfl
  | cons f fs ih =>
    intro L2 st
    rw [List.cons_append]
    simp only [processFrames]
    rcases hout : output_frame ex base st f s with ⟨st1, o⟩
    cases o with
    | none => exact ih L2 st1
    | some err => rfl

theorem execute_eq_runList {ε : Type} (ex : Int → Except ε Unit) (base : String)
    (s e : Int) (k : Nat) :
    execute ex base s e k = runList ex base s (sampleFrames s e k) := by
  simp only [execute, runList, sampleFrames]
  rw [executeLoop_eq_processFrames ex base e k s (e - s).toNat s (le_refl _),
    processFrames_append]
  rcases h1 : processFrames ex base s (sampleLoop e k s)
      { chunks := [("<?xml version=\"1.0\"?>\n"), ("<animation>\n")],
        models := [], closed := false } with ⟨st1, o⟩
  cases o with
  | none =>
    simp only [processFrames]
    rcases h2 : output_frame ex base st1 e s with ⟨st2, o2⟩
    cases o2 with
    | none => rfl
    | some err => rfl
  | some err => rfl

theorem processFrames_none {ε : Type} (ex : Int → Except ε Unit) (base : String) (s : Int) :
    ∀ (L : List Int) (st st' : KFile),
      processFrames ex base s L st = (st', none) →
        st' = { st with
                chunks := st.chunks ++ L.map (fun g => frameLine base g s),
                models := st.models ++ L.map (fun g => outputBasename base g) } := by
  intro L
  induction L with
  | nil =>
    intro st st' h
    simp only [processFrames] at h
    injection h with h1 h2
    subst h1
    simp
  | cons f fs ih =>
    intro st st' h
    cases hex : ex f with
    | ok u =>
      cases u
      rw [processFrames_cons_ok ex base s f fs st hex] at h
      have h2 := ih _ st' h
      rw [h2]
      simp [List.append_assoc]
    | error e0 =>
      rw [processFrames_cons_err ex base s f fs st e0 hex] at h
      injection h with h1 h2
      exact absurd h2 (by simp)

theorem processFrames_error {ε : Type} (ex : Int → Except ε Unit) (base : String) (s : Int) :
    ∀ (L : List Int) (st st' : KFile) (err : ε),
      processFrames ex base s L st = (st', some err) →
        ∃ f, (L.dropWhile (fun g => okB (ex g))).head? = some f ∧
          ex f = Except.error err ∧
          st'.chunks = st.chunks ++
            (L.takeWhile (fun g => okB (ex g))).map (fun g => frameLine base g s) ++
            [frameLine base f s] ∧
          st'.models = st.models ++
            (L.takeWhile (fun g => okB (ex g))).map (fun g => outputBasename base g) ∧
          st'.closed = st.closed := by
  intro L
  induction L with
  | nil =>
    intro st st' err h
    simp only [processFrames] at h
    injection h with h1 h2
    exact Option.noConfusion h2
  | cons f fs ih =>
    intro st st' err h
    cases hex : ex f with
    | ok u =>
      cases u
      rw [processFrames_cons_ok ex base s f fs st hex] at h
      obtain ⟨g, hg1, hg2, hg3, hg4, hg5⟩ := ih _ st' err h
      refine ⟨g, ?_, hg2, ?_, ?_, hg5⟩
      · simp only [List.dropWhile_cons, hex, okB]
        simpa using hg1
      · rw [hg3]
        simp [List.takeWhile_cons, hex, okB, List.append_assoc]
      · rw [hg4]
        simp [List.takeWhile_cons, hex, okB, List.append_assoc]
    | error e0 =>
      rw [processFrames_cons_err ex base s f fs st e0 hex] at h
      injection h with h1 h2
      injection h2 with h2
      subst h2
      refine ⟨f, ?_, hex, ?_, ?_, ?_⟩
      · simp [List.dropWhile_cons, hex, okB]
      · rw [← h1]
        simp [List.takeWhile_cons, hex, okB]
      · rw [← h1]
        simp [List.takeWhile_cons, hex, okB]
      · rw [← h1]

theorem pyPad4_of_nonneg (n : Int) (h : 0 ≤ n) :
    pyPad4 n = String.mk (List.leftpad 4 '0' (decRepr n.natAbs).data) := by
  rw [pyPad4, if_neg (by omega : ¬ n < 0)]

theorem strVal_pyPad4_of_nonneg (n : Int) (h : 0 ≤ n) : strVal (pyPad4 n) = n.toNat :=
  strVal_pyPad4 n h

theorem outputBasename_inj (base : String) (f1 f2 : Int)
    (h1 : 0 ≤ f1) (h2 : 0 ≤ f2)
    (he : outputBasename base f1 = outputBasename base f2) : f1 = f2 := by
  have hd : (outputBasename base f1).data = (outputBasename base f2).data := by rw [he]
  simp only [outputBasename, String.data_append, List.append_assoc] at hd
  have hd2 : (pyPad4 f1).data ++ (".x3d").data = (pyPad4 f2).data ++ (".x3d").data :=
    List.append_cancel_left hd
  have hd3 : (pyPad4 f1).data = (pyPad4 f2).data := List.append_cancel_right hd2
  have hp : pyPad4 f1 = pyPad4 f2 := String.ext hd3
  have hv1 : strVal (pyPad4 f1) = f1.toNat := strVal_pyPad4 f1 h1
  have hv2 : strVal (pyPad4 f2) = f2.toNat := strVal_pyPad4 f2 h2
  rw [hp, hv2] at hv1
  omega

theorem fmtTime_of_le (F S : Int) (h : S ≤ F) :
    fmtTime F S = decRepr ((40000 * (F - S)).natAbs / 1000000) ++ (".") ++
      String.mk (List.leftpad 6 '0' (decRepr ((40000 * (F - S)).natAbs % 1000000)).data) := by
  have hmicro : ¬ 40000 * (F - S) < 0 := by
    have h0 : (0 : Int) ≤ F - S := by omega
    have := mul_nonneg (by norm_num : (0 : Int) ≤ 40000) h0
    omega
  simp only [fmtTime]
  rw [if_neg hmicro]

theorem sampleFrames_of_end_lt (s e : Int) (k : Nat) (h : e < s) :
    sampleFrames s e k = [e] := by
  rw [sampleFrames, sampleLoop_neg e k s (by omega)]
  rfl

theorem frameLine_head (base : String) (f s : Int) :
    (frameLine base f s).data.head? = some ' ' := by
  have h1 : (("  <frame file_name=\"") : String).data.head? = some ' ' := by decide
  show ((("  <frame file_name=\"") ++ outputBasename base f ++ ("\" time=\"") ++
    fmtTime f s ++ ("\" />\n")).data).head? = some ' '
  simp only [String.data_append, List.head?_append, h1]
  rfl

theorem frameLine_ne_close (base : String) (f s : Int) :
    frameLine base f s ≠ ("</animation>\n") := by
  intro h
  have h2 : (frameLine base f s).data.head? = (("</animation>\n") : String).data.head? := by
    rw [h]
  rw [frameLine_head base f s] at h2
  exact absurd h2 (by decide)

theorem execute_ok {ε : Type} (ex : Int → Except ε Unit) (base : String)
    (s e : Int) (k : Nat) (st : KFile)
    (h : execute ex base s e k = (st, none)) :
    st = { chunks := [("<?xml version=\"1.0\"?>\n"), ("<animation>\n")] ++
             (sampleFrames s e k).map (fun g => frameLine base g s) ++ [("</animation>\n")],
           models := (sampleFrames s e k).map (fun g => outputBasename base g),
           closed := true } := by
  rw [execute_eq_runList] at h
  simp only [runList] at h
  rcases hpf : processFrames ex base s (sampleFrames s e k)
      { chunks := [("<?xml version=\"1.0\"?>\n"), ("<animation>\n")],
        models := [], closed := false } with ⟨st1, o⟩
  rw [hpf] at h
  cases o with
  | none =>
    have hshape := processFrames_none ex base s (sampleFrames s e k) _ st1 hpf
    injection h with h1 h2
    rw [← h1, hshape]
    simp [List.append_assoc]
  | some err =>
    injection h with h1 h2
    exact Option.noConfusion h2

theorem execute_error {ε : Type} (ex : Int → Except ε Unit) (base : String)
    (s e : Int) (k : Nat) (st : KFile) (err : ε)
    (h : execute ex base s e k = (st, some err)) :
    ∃ f, ((sampleFrames s e k).dropWhile (fun g => okB (ex g))).head? = some f ∧
      ex f = Except.error err ∧
      st.chunks = [("<?xml version=\"1.0\"?>\n"), ("<animation>\n")] ++
        ((sampleFrames s e k).takeWhile (fun g => okB (ex g))).map (fun g => frameLine base g s) ++
        [frameLine base f s] ∧
      st.models =
        ((sampleFrames s e k).takeWhile (fun g => okB (ex g))).map (fun g => outputBasename base g) ∧
      st.closed = false := by
  rw [execute_eq_runList] at h
  simp only [runList] at h
  rcases hpf : processFrames ex base s (sampleFrames s e k)
      { chunks := [("<?xml version=\"1.0\"?>\n"), ("<animation>\n")],
        models := [], closed := false } with ⟨st1, o⟩
  rw [hpf] at h
  cases o with
  | none =>
    injection h with h1 h2
    exact Option.noConfusion h2
  | some e0 =>
    injection h with h1 h2
    injection h2 with h2
    subst h2
    subst h1
    obtain ⟨f, hf1, hf2, hf3, hf4, hf5⟩ :=
      processFrames_error ex base s (sampleFrames s e k) _ _ _ hpf
    exact ⟨f, hf1, hf2, by simpa using hf3, by simpa using hf4, by simpa using hf5⟩

/-! The claims. -/

/-- Claim C1: for every start, end and skip with start ≤ end, the sampled
frame sequence is strictly increasing, begins at start, ends with end,
contains no duplicate frame, and every element is followed by
min (element + skip + 1) end — that is, the sequence advances by skip + 1
per step, stops once the next value would exceed end, and always has end as
its final element, also when start = end or when the stride hits end
exactly. -/
theorem claim_C1 (s e : Int) (k : Nat) (h : s ≤ e) :
    (sampleFrames s e k).head? = some s ∧
    (sampleFrames s e k).getLast? = some e ∧
    List.Chain' (fun a b => a < b) (sampleFrames s e k) ∧
    (sampleFrames s e k).Nodup ∧
    (∀ (i : Nat) (x y : Int), (sampleFrames s e k)[i]? = some x →
      (sampleFrames s e k)[i + 1]? = some y → y = min (x + 1 + (k : Int)) e) :=
  ⟨sampleFrames_head s e k h, sampleFrames_getLast s e k, sampleFrames_chain s e k,
   sampleFrames_nodup s e k,
   fun i x y hx hy => sampleLoop_step e k (e - s).toNat s (le_refl _) i x y hx hy⟩

/-- Concrete instantiation of claim C1 at start 0, end 10, skip 4. -/
theorem claim_C1_witness :
    (0 : Int) ≤ 10 ∧
    ((sampleFrames 0 10 4).head? = some 0 ∧
     (sampleFrames 0 10 4).getLast? = some 10 ∧
     List.Chain' (fun a b => a < b) (sampleFrames 0 10 4) ∧
     (sampleFrames 0 10 4).Nodup ∧
     (∀ (i : Nat) (x y : Int), (sampleFrames 0 10 4)[i]? = some x →
       (sampleFrames 0 10 4)[i + 1]? = some y → y = min (x + 1 + ((4 : Nat) : Int)) 10)) :=
  ⟨by decide, claim_C1 0 10 4 (by decide)⟩

/-- Claim C5: the sampler test vectors — start 0 end 10 skip 4 gives
[0, 5, 10]; start 0 end 12 skip 4 gives [0, 5, 10, 12]; start 5 end 5 skip 0
gives [5] without duplication. -/
theorem claim_C5 :
    sampleFrames 0 10 4 = [0, 5, 10] ∧
    sampleFrames 0 12 4 = [0, 5, 10, 12] ∧
    sampleFrames 5 5 0 = [5] ∧ (sampleFrames 5 5 0).Nodup := by
  refine ⟨?_, ?_, ?_, ?_⟩
  · rw [sampleFrames_eval 0 10 4 10 (by decide)]
    decide
  · rw [sampleFrames_eval 0 12 4 12 (by decide)]
    decide
  · rw [sampleFrames_eval 5 5 0 0 (by decide)]
    decide
  · rw [sampleFrames_eval 5 5 0 0 (by decide)]
    decide

/-- Claim C6 counterexample: at start 5, end 3, skip 0 the code samples [3]
alone — the loop body never runs — and not the claimed [5, 3]. -/
theorem claim_C6_counterexample :
    sampleFrames 5 3 0 = [3] ∧ sampleFrames 5 3 0 ≠ [5, 3] := by
  have h : sampleFrames 5 3 0 = [3] := by
    rw [sampleFrames_eval 5 3 0 0 (by decide)]
    decide
  refine ⟨h, ?_⟩
  rw [h]
  decide

/-- Claim C6 (amended): when end < start the while-loop executes zero
iterations, so the sampled frame sequence is [end] alone; start is never
sampled. -/
theorem claim_C6 (s e : Int) (k : Nat) (h : e < s) : sampleFrames s e k = [e] :=
  sampleFrames_of_end_lt s e k h

/-- Concrete instantiation of claim C6 (amended) at start 5, end 3, skip 0. -/
theorem claim_C6_witness : (3 : Int) < 5 ∧ sampleFrames 5 3 0 = [3] :=
  ⟨by decide, claim_C6 5 3 0 (by decide)⟩

/-- Claim C3 counterexample: two distinct frame numbers at or above 10000
never produce the same file name — the 4-digit padding is a minimum width,
not a truncation — refuting the claimed collision. -/
theorem claim_C3_counterexample :
    ¬ ∃ f1 f2 : Int, 10000 ≤ f1 ∧ 10000 ≤ f2 ∧ f1 ≠ f2 ∧
      outputBasename ("anim.kanim") f1 = outputBasename ("anim.kanim") f2 := by
  rintro ⟨f1, f2, h1, h2, hne, he⟩
  exact hne (outputBasename_inj ("anim.kanim") f1 f2 (by omega) (by omega) he)

/-- Claim C3 (amended): each per-frame file name is the request's base name
without its extension, then the frame number zero-padded to a minimum of four
digits, then ".x3d"; the mapping is injective for every nonnegative frame
number — frames at or above 10000 render with five or more digits and do not
collide. -/
theorem claim_C3 (base : String) :
    (∀ f : Int, outputBasename base f = splitextStem base ++ pyPad4 f ++ (".x3d")) ∧
    (∀ f1 f2 : Int, 0 ≤ f1 → 0 ≤ f2 →
      outputBasename base f1 = outputBasename base f2 → f1 = f2) :=
  ⟨fun _ => rfl, fun f1 f2 h1 h2 he => outputBasename_inj base f1 f2 h1 h2 he⟩

/-- Concrete instantiation of claim C3 (amended) at frame 12345. -/
theorem claim_C3_witness :
    (outputBasename ("anim.kanim") 12345 =
      splitextStem ("anim.kanim") ++ pyPad4 12345 ++ (".x3d")) ∧
    ((0 : Int) ≤ 12345 ∧ (0 : Int) ≤ 12345 ∧ (12345 : Int) = 12345) :=
  ⟨(claim_C3 ("anim.kanim")).1 12345,
   by decide, by decide,
   (claim_C3 ("anim.kanim")).2 12345 12345 (by decide) (by decide) rfl⟩

/-- Claim C2: for every exported frame F with start frame S ≤ F, the time
attribute is the integer part, a dot, and exactly six decimal digits, its
parsed value is exactly (F - S) / 25, and at F = S it is the string
0.000000. -/
theorem claim_C2 (F S : Int) (h : S ≤ F) :
    (∃ ip fp : String,
      fmtTime F S = ip ++ (".") ++ fp ∧
      fp.length = 6 ∧
      (∀ c ∈ fp.data, c.isDigit = true) ∧
      (∀ c ∈ ip.data, c.isDigit = true) ∧
      (strVal ip : ℚ) + (strVal fp : ℚ) / 1000000 = (((F : Int) : ℚ) - ((S : Int) : ℚ)) / 25) ∧
    (F = S → fmtTime F S = ("0.000000")) := by
  constructor
  · refine ⟨decRepr ((40000 * (F - S)).natAbs / 1000000),
      String.mk (List.leftpad 6 '0' (decRepr ((40000 * (F - S)).natAbs % 1000000)).data),
      fmtTime_of_le F S h, ?_, ?_, ?_, ?_⟩
    · show (List.leftpad 6 '0' (decRepr ((40000 * (F - S)).natAbs % 1000000)).data).length = 6
      rw [List.leftpad_length]
      have hpow : (10 : ℕ) ^ 6 = 1000000 := by norm_num
      have hlt : (40000 * (F - S)).natAbs % 1000000 < 10 ^ 6 := by
        have h1 := Nat.mod_lt (40000 * (F - S)).natAbs (show 0 < 1000000 by norm_num)
        omega
      have := decRepr_length_le ((40000 * (F - S)).natAbs % 1000000) 6 (by norm_num) hlt
      omega
    · intro c hc
      have hc2 : c ∈ List.replicate
          (6 - (decRepr ((40000 * (F - S)).natAbs % 1000000)).data.length) '0' ++
          (decRepr ((40000 * (F - S)).natAbs % 1000000)).data := by
        simpa [List.leftpad] using hc
      rcases List.mem_append.mp hc2 with hr | hd
      · rw [List.eq_of_mem_replicate hr]
        rfl
      · exact decRepr_isDigit _ c hd
    · intro c hc
      exact decRepr_isDigit _ c hc
    · have hMeq : ((40000 * (F - S)).natAbs : Int) = 40000 * (F - S) :=
        Int.natAbs_of_nonneg (mul_nonneg (by norm_num) (by omega))
      have hdm : 1000000 * ((40000 * (F - S)).natAbs / 1000000) +
          (40000 * (F - S)).natAbs % 1000000 = (40000 * (F - S)).natAbs :=
        Nat.div_add_mod _ 1000000
      rw [strVal_mk_leftpad]
      have hv1 : strVal (decRepr ((40000 * (F - S)).natAbs / 1000000)) =
          (40000 * (F - S)).natAbs / 1000000 := strVal_decRepr _
      have hv2 : strVal (String.mk (decRepr ((40000 * (F - S)).natAbs % 1000000)).data) =
          (40000 * (F - S)).natAbs % 1000000 := strVal_decRepr _
      rw [hv1, hv2]
      have hq : (1000000 : ℚ) * (((40000 * (F - S)).natAbs / 1000000 : ℕ) : ℚ) +
          (((40000 * (F - S)).natAbs % 1000000 : ℕ) : ℚ) =
          (((40000 * (F - S)).natAbs : ℕ) : ℚ) := by
        exact_mod_cast hdm
      have hM2 : (((40000 * (F - S)).natAbs : ℕ) : ℚ) = 40000 * (((F : Int) : ℚ) - ((S : Int) : ℚ)) := by
        have h2 : (((40000 * (F - S)).natAbs : Int) : ℚ) = ((40000 * (F - S) : Int) : ℚ) := by
          exact_mod_cast hMeq
        calc (((40000 * (F - S)).natAbs : ℕ) : ℚ)
            = (((40000 * (F - S)).natAbs : Int) : ℚ) := by rw [Int.cast_natCast]
          _ = ((40000 * (F - S) : Int) : ℚ) := h2
          _ = 40000 * (((F : Int) : ℚ) - ((S : Int) : ℚ)) := by push_cast; ring
      field_simp
      linarith [hq, hM2]
  · intro hFS
    subst hFS
    simp only [fmtTime, sub_self, mul_zero]
    decide

/-- Claim C10 (implicit): when frame_end < frame_start the stride loop
executes zero iterations, so exactly one frame entry is written and one model
file exported, both for frame_end alone. -/
theorem claim_C10 {ε : Type} (ex : Int → Except ε Unit) (base : String)
    (s e : Int) (k : Nat) (h : e < s) (hok : ex e = Except.ok ()) :
    execute ex base s e k =
      ({ chunks :=
           [("<?xml version=\"1.0\"?>\n"), ("<animation>\n"),
            frameLine base e s, ("</animation>\n")],
         models := [outputBasename base e],
         closed := true }, none) := by
  rw [execute_eq_runList, sampleFrames_of_end_lt s e k h]
  simp [runList, processFrames, output_frame, hok]

/-- Concrete instantiation of claim C10 at start 5, end 3, skip 0 with an
always-succeeding host exporter. -/
theorem claim_C10_witness :
    (3 : Int) < 5 ∧ exAlways 3 = Except.ok () ∧
    execute exAlways ("a.kanim") 5 3 0 =
      ({ chunks :=
           [("<?xml version=\"1.0\"?>\n"), ("<animation>\n"),
            frameLine ("a.kanim") 3 5, ("</animation>\n")],
         models := [outputBasename ("a.kanim") 3],
         closed := true }, none) :=
  ⟨by decide, rfl, claim_C10 exAlways ("a.kanim") 5 3 0 (by decide) rfl⟩

/-- Concrete instantiation of claim C2 at frame 5 with start frame 2. -/
theorem claim_C2_witness :
    (2 : Int) ≤ 5 ∧
    ((∃ ip fp : String,
      fmtTime 5 2 = ip ++ (".") ++ fp ∧
      fp.length = 6 ∧
      (∀ c ∈ fp.data, c.isDigit = true) ∧
      (∀ c ∈ ip.data, c.isDigit = true) ∧
      (strVal ip : ℚ) + (strVal fp : ℚ) / 1000000 =
        (((5 : Int) : ℚ) - ((2 : Int) : ℚ)) / 25) ∧
     ((5 : Int) = 2 → fmtTime 5 2 = ("0.000000"))) :=
  ⟨by decide, claim_C2 5 2 (by decide)⟩

/-- Claim C4: on a successful export the chunks written to the index file are
exactly the XML prolog line, the root-opening line, one self-closing frame
line per sampled frame carrying the double-quoted file_name attribute first
and the double-quoted time attribute second, and the root-closing line, in
that order. -/
theorem claim_C4 {ε : Type} (ex : Int → Except ε Unit) (base : String)
    (s e : Int) (k : Nat) (st : KFile)
    (h : execute ex base s e k = (st, none)) :
    st.chunks = [("<?xml version=\"1.0\"?>\n"), ("<animation>\n")] ++
      (sampleFrames s e k).map (fun f =>
        ("  <frame file_name=\"") ++ outputBasename base f ++ ("\" time=\"") ++
          fmtTime f s ++ ("\" />\n")) ++
      [("</animation>\n")] := by
  rw [execute_ok ex base s e k st h]
  simp only [frameLine]

/-- Concrete instantiation of claim C4: a successful run over frames 0 and 1. -/
theorem claim_C4_witness :
    execute exAlways ("a.kanim") 0 1 0 =
      (KFile.mk
        [("<?xml version=\"1.0\"?>\n"), ("<animation>\n"),
         ("  <frame file_name=\"a0000.x3d\" time=\"0.000000\" />\n"),
         ("  <frame file_name=\"a0001.x3d\" time=\"0.040000\" />\n"),
         ("</animation>\n")]
        [("a0000.x3d"), ("a0001.x3d")] true, none) ∧
    (KFile.mk
        [("<?xml version=\"1.0\"?>\n"), ("<animation>\n"),
         ("  <frame file_name=\"a0000.x3d\" time=\"0.000000\" />\n"),
         ("  <frame file_name=\"a0001.x3d\" time=\"0.040000\" />\n"),
         ("</animation>\n")]
        [("a0000.x3d"), ("a0001.x3d")] true).chunks =
      [("<?xml version=\"1.0\"?>\n"), ("<animation>\n")] ++
      (sampleFrames 0 1 0).map (fun f =>
        ("  <frame file_name=\"") ++ outputBasename ("a.kanim") f ++ ("\" time=\"") ++
          fmtTime f 0 ++ ("\" />\n")) ++
      [("</animation>\n")] := by
  have hrun : execute exAlways ("a.kanim") 0 1 0 =
      (KFile.mk
        [("<?xml version=\"1.0\"?>\n"), ("<animation>\n"),
         ("  <frame file_name=\"a0000.x3d\" time=\"0.000000\" />\n"),
         ("  <frame file_name=\"a0001.x3d\" time=\"0.040000\" />\n"),
         ("</animation>\n")]
        [("a0000.x3d"), ("a0001.x3d")] true, none) := by
    rw [execute_eq_runList, sampleFrames_eval 0 1 0 1 (by decide)]
    decide
  exact ⟨hrun, claim_C4 exAlways ("a.kanim") 0 1 0 _ hrun⟩

/-- Claim C7 counterexample: with a host exporter failing at frame 1, the run
propagates the error and leaves the kanim file unclosed — there is no scoped
acquisition, so close is not guaranteed on error. -/
theorem claim_C7_counterexample :
    (execute exUntil1 ("a.kanim") 0 2 0).2 = some ("boom") ∧
    (execute exUntil1 ("a.kanim") 0 2 0).1.closed = false := by
  rw [execute_eq_runList, sampleFrames_eval 0 2 0 2 (by decide)]
  exact ⟨by decide, by decide⟩

/-- Claim C7 (amended): the destination is closed only on successful
completion; when an error propagates out of the export loop the close call is
never reached and the resource is left open. -/
theorem claim_C7 {ε : Type} (ex : Int → Except ε Unit) (base : String)
    (s e : Int) (k : Nat) (st : KFile) :
    (execute ex base s e k = (st, none) → st.closed = true) ∧
    (∀ err : ε, execute ex base s e k = (st, some err) → st.closed = false) := by
  constructor
  · intro h
    rw [execute_ok ex base s e k st h]
  · intro err h
    obtain ⟨f, h1, h2, h3, h4, h5⟩ := execute_error ex base s e k st err h
    exact h5

/-- Concrete instantiation of claim C7 (amended): the failing run at frame 1
leaves the file open. -/
theorem claim_C7_witness :
    execute exUntil1 ("a.kanim") 0 2 0 =
      (KFile.mk
        [("<?xml version=\"1.0\"?>\n"), ("<animation>\n"),
         ("  <frame file_name=\"a0000.x3d\" time=\"0.000000\" />\n"),
         ("  <frame file_name=\"a0001.x3d\" time=\"0.040000\" />\n")]
        [("a0000.x3d")] false, some ("boom")) ∧
    (KFile.mk
        [("<?xml version=\"1.0\"?>\n"), ("<animation>\n"),
         ("  <frame file_name=\"a0000.x3d\" time=\"0.000000\" />\n"),
         ("  <frame file_name=\"a0001.x3d\" time=\"0.040000\" />\n")]
        [("a0000.x3d")] false).closed = false := by
  have hrun : execute exUntil1 ("a.kanim") 0 2 0 =
      (KFile.mk
        [("<?xml version=\"1.0\"?>\n"), ("<animation>\n"),
         ("  <frame file_name=\"a0000.x3d\" time=\"0.000000\" />\n"),
         ("  <frame file_name=\"a0001.x3d\" time=\"0.040000\" />\n")]
        [("a0000.x3d")] false, some ("boom")) := by
    rw [execute_eq_runList, sampleFrames_eval 0 2 0 2 (by decide)]
    decide
  exact ⟨hrun, (claim_C7 exUntil1 ("a.kanim") 0 2 0
    (KFile.mk
        [("<?xml version=\"1.0\"?>\n"), ("<animation>\n"),
         ("  <frame file_name=\"a0000.x3d\" time=\"0.000000\" />\n"),
         ("  <frame file_name=\"a0001.x3d\" time=\"0.040000\" />\n")]
        [("a0000.x3d")] false)).2 ("boom") hrun⟩

/-- Claim C8: when the host exporter fails on a sampled frame, the error
value is propagated unmodified, the model files produced are exactly those of
the sampled frames before the first failing frame — no later frame is
exported — and the root-closing tag is never written, leaving the index
incomplete. -/
theorem claim_C8 {ε : Type} (ex : Int → Except ε Unit) (base : String)
    (s e : Int) (k : Nat) (st : KFile) (err : ε)
    (h : execute ex base s e k = (st, some err)) :
    ∃ f, ((sampleFrames s e k).dropWhile (fun g => okB (ex g))).head? = some f ∧
      ex f = Except.error err ∧
      st.models = ((sampleFrames s e k).takeWhile (fun g => okB (ex g))).map
        (fun g => outputBasename base g) ∧
      ("</animation>\n") ∉ st.chunks := by
  obtain ⟨f, h1, h2, h3, h4, h5⟩ := execute_error ex base s e k st err h
  refine ⟨f, h1, h2, h4, ?_⟩
  rw [h3]
  intro hmem
  rcases List.mem_append.mp hmem with h6 | h7
  · rcases List.mem_append.mp h6 with h8 | h9
    · exact absurd h8 (by decide)
    · obtain ⟨g, hg1, hg2⟩ := List.mem_map.mp h9
      exact frameLine_ne_close base g s hg2
  · have h10 : ("</animation>\n") = frameLine base f s := List.mem_singleton.mp h7
    exact frameLine_ne_close base f s h10.symm

/-- Concrete instantiation of claim C8: the exporter failing at frame 1 of a
0..2 run. -/
theorem claim_C8_witness :
    execute exUntil1 ("a.kanim") 0 2 0 =
      (KFile.mk
        [("<?xml version=\"1.0\"?>\n"), ("<animation>\n"),
         ("  <frame file_name=\"a0000.x3d\" time=\"0.000000\" />\n"),
         ("  <frame file_name=\"a0001.x3d\" time=\"0.040000\" />\n")]
        [("a0000.x3d")] false, some ("boom")) ∧
    (∃ f, ((sampleFrames 0 2 0).dropWhile (fun g => okB (exUntil1 g))).head? = some f ∧
      exUntil1 f = Except.error ("boom") ∧
      (KFile.mk
        [("<?xml version=\"1.0\"?>\n"), ("<animation>\n"),
         ("  <frame file_name=\"a0000.x3d\" time=\"0.000000\" />\n"),
         ("  <frame file_name=\"a0001.x3d\" time=\"0.040000\" />\n")]
        [("a0000.x3d")] false).models =
        ((sampleFrames 0 2 0).takeWhile (fun g => okB (exUntil1 g))).map
          (fun g => outputBasename ("a.kanim") g) ∧
      ("</animation>\n") ∉ (KFile.mk
        [("<?xml version=\"1.0\"?>\n"), ("<animation>\n"),
         ("  <frame file_name=\"a0000.x3d\" time=\"0.000000\" />\n"),
         ("  <frame file_name=\"a0001.x3d\" time=\"0.040000\" />\n")]
        [("a0000.x3d")] false).chunks) := by
  have hrun : execute exUntil1 ("a.kanim") 0 2 0 =
      (KFile.mk
        [("<?xml version=\"1.0\"?>\n"), ("<animation>\n"),
         ("  <frame file_name=\"a0000.x3d\" time=\"0.000000\" />\n"),
         ("  <frame file_name=\"a0001.x3d\" time=\"0.040000\" />\n")]
        [("a0000.x3d")] false, some ("boom")) := by
    rw [execute_eq_runList, sampleFrames_eval 0 2 0 2 (by decide)]
    decide
  exact ⟨hrun, claim_C8 exUntil1 ("a.kanim") 0 2 0 _ ("boom") hrun⟩

/-- Claim C9 (implicit): the frame line is written to the index before the
host exporter is invoked for that frame, so when the exporter fails on frame
f the index already ends with f's entry — referencing f's file name — while
f does not belong to the successfully exported prefix. -/
theorem claim_C9 {ε : Type} (ex : Int → Except ε Unit) (base : String)
    (s e : Int) (k : Nat) (st : KFile) (err : ε)
    (h : execute ex base s e k = (st, some err)) :
    ∃ f, ((sampleFrames s e k).dropWhile (fun g => okB (ex g))).head? = some f ∧
      st.chunks.getLast? = some (frameLine base f s) ∧
      f ∉ (sampleFrames s e k).takeWhile (fun g => okB (ex g)) ∧
      st.models = ((sampleFrames s e k).takeWhile (fun g => okB (ex g))).map
        (fun g => outputBasename base g) := by
  obtain ⟨f, h1, h2, h3, h4, h5⟩ := execute_error ex base s e k st err h
  refine ⟨f, h1, ?_, ?_, h4⟩
  · rw [h3]
    exact List.getLast?_concat _
  · intro hmem
    have hp := List.mem_takeWhile_imp hmem
    rw [h2] at hp
    simp [okB] at hp

/-- Concrete instantiation of claim C9: the exporter failing at frame 1 of a
0..2 run; the last chunk is frame 1's line and frame 1 produced no model. -/
theorem claim_C9_witness :
    execute exUntil1 ("a.kanim") 0 2 0 =
      (KFile.mk
        [("<?xml version=\"1.0\"?>\n"), ("<animation>\n"),
         ("  <frame file_name=\"a0000.x3d\" time=\"0.000000\" />\n"),
         ("  <frame file_name=\"a0001.x3d\" time=\"0.040000\" />\n")]
        [("a0000.x3d")] false, some ("boom")) ∧
    (∃ f, ((sampleFrames 0 2 0).dropWhile (fun g => okB (exUntil1 g))).head? = some f ∧
      (KFile.mk
        [("<?xml version=\"1.0\"?>\n"), ("<animation>\n"),
         ("  <frame file_name=\"a0000.x3d\" time=\"0.000000\" />\n"),
         ("  <frame file_name=\"a0001.x3d\" time=\"0.040000\" />\n")]
        [("a0000.x3d")] false).chunks.getLast? = some (frameLine ("a.kanim") f 0) ∧
      f ∉ (sampleFrames 0 2 0).takeWhile (fun g => okB (exUntil1 g)) ∧
      (KFile.mk
        [("<?xml version=\"1.0\"?>\n"), ("<animation>\n"),
         ("  <frame file_name=\"a0000.x3d\" time=\"0.000000\" />\n"),
         ("  <frame file_name=\"a0001.x3d\" time=\"0.040000\" />\n")]
        [("a0000.x3d")] false).models =
        ((sampleFrames 0 2 0).takeWhile (fun g => okB (exUntil1 g))).map
          (fun g => outputBasename ("a.kanim") g)) := by
  have hrun : execute exUntil1 ("a.kanim") 0 2 0 =
      (KFile.mk
        [("<?xml version=\"1.0\"?>\n"), ("<animation>\n"),
         ("  <frame file_name=\"a0000.x3d\" time=\"0.000000\" />\n"),
         ("  <frame file_name=\"a0001.x3d\" time=\"0.040000\" />\n")]
        [("a0000.x3d")] false, some ("boom")) := by
    rw [execute_eq_runList, sampleFrames_eval 0 2 0 2 (by decide)]
    decide
  exact ⟨hrun, claim_C9 exUntil1 ("a.kanim") 0 2 0 _ ("boom") hrun⟩

end KAnim
